import Mathlib

/-!
Verification of the Order Submission Engine of the Petshop (ClickEats)
repository, embedded shallowly from the source: the `menu_items`
availability trigger and clamped stock decrement, the order-creation flow
(`createOrder` in `useOrders.ts`), the insert-time rate-limit trigger, and
the order-search SQL function.

Monetary amounts (`numeric(12,2)`) are modelled as integers in hundredths;
SQL `NULL` becomes `Option`; timestamps are integral seconds.
-/

namespace Petshop

/-- A row of the `menu_items` table, restricted to the columns the order
engine reads and writes. -/
structure MenuItem where
  id : String
  name : String
  track_inventory : Option Bool
  stock_quantity : Option Int
  low_stock_threshold : Option Int
  available : Bool
  deriving DecidableEq

/-- Embedding of the BEFORE INSERT/UPDATE trigger function
`sync_menu_item_availability` from
`supabase/migrations/20250103000000_fix_availability_trigger.sql`:
when the row tracks inventory, clamp stock and threshold to be non-negative,
and recompute `available` only when stock, threshold or the tracking flag
differ (SQL `IS DISTINCT FROM`) between the OLD and the clamped NEW row. -/
def sync_menu_item_availability (orow nrow : MenuItem) : MenuItem :=
  if nrow.track_inventory.getD false then
    let sq : Int := max (nrow.stock_quantity.getD 0) 0
    let th : Int := max (nrow.low_stock_threshold.getD 0) 0
    let n1 : MenuItem := { nrow with stock_quantity := some sq, low_stock_threshold := some th }
    if orow.stock_quantity ≠ n1.stock_quantity ∨
       orow.low_stock_threshold ≠ n1.low_stock_threshold ∨
       orow.track_inventory ≠ nrow.track_inventory then
      { n1 with available := if sq ≤ th then false else true }
    else n1
  else nrow

/-- One row update performed by `decrement_menu_item_stock` (SQL RPC):
`UPDATE menu_items SET stock_quantity = GREATEST(COALESCE(stock_quantity,0) - qty, 0)
WHERE track_inventory = true AND id::text = entry->>'id'`.
The BEFORE UPDATE trigger `sync_menu_item_availability` fires on the update. -/
def decrementRow (eid : String) (qty : Int) (r : MenuItem) : MenuItem :=
  if r.track_inventory.getD false && (r.id == eid) then
    sync_menu_item_availability r
      { r with stock_quantity := some (max (r.stock_quantity.getD 0 - qty) 0) }
  else r

/-- Embedding of the batch RPC `decrement_menu_item_stock(items jsonb)`:
each `(id, qty)` entry updates the matching tracked rows. -/
def decrement_menu_item_stock (items : List (String × Int)) (menu : List MenuItem) :
    List MenuItem :=
  items.foldl (fun st e => st.map (decrementRow e.1 e.2)) menu

lemma decrementRow_untracked (eid : String) (qty : Int) (r : MenuItem)
    (h : r.track_inventory.getD false = false) : decrementRow eid qty r = r := by
  simp [decrementRow, h]

lemma decrementRow_cases (eid : String) (qty : Int) (r : MenuItem) :
    decrementRow eid qty r = r ∨
      ∃ n, 0 ≤ n ∧ (decrementRow eid qty r).stock_quantity = some n := by
  unfold decrementRow
  split
  · refine Or.inr ⟨max (max (r.stock_quantity.getD 0 - qty) 0) 0, le_max_right _ _, ?_⟩
    rename_i hcond
    have htr : r.track_inventory.getD false = true := by
      have := hcond
      simp only [Bool.and_eq_true] at this
      exact this.1
    unfold sync_menu_item_availability
    simp only [htr, if_true]
    split <;> simp
  · exact Or.inl rfl

lemma decrement_eq_map (items : List (String × Int)) (menu : List MenuItem) :
    decrement_menu_item_stock items menu =
      menu.map (fun r => items.foldl (fun x e => decrementRow e.1 e.2 x) r) := by
  induction items generalizing menu with
  | nil => simp [decrement_menu_item_stock]
  | cons e t ih =>
      unfold decrement_menu_item_stock at ih ⊢
      rw [List.foldl_cons, ih, List.map_map]
      rfl

lemma foldRow_untracked (ops : List (String × Int)) (r : MenuItem)
    (h : r.track_inventory.getD false = false) :
    ops.foldl (fun x e => decrementRow e.1 e.2 x) r = r := by
  induction ops with
  | nil => rfl
  | cons e t ih => rw [List.foldl_cons, decrementRow_untracked _ _ _ h, ih]

lemma foldRow_stock (ops : List (String × Int)) :
    ∀ r : MenuItem,
      ops.foldl (fun x e => decrementRow e.1 e.2 x) r = r ∨
      ∃ n, 0 ≤ n ∧ (ops.foldl (fun x e => decrementRow e.1 e.2 x) r).stock_quantity = some n := by
  induction ops with
  | nil => intro r; exact Or.inl rfl
  | cons e t ih =>
      intro r
      rw [List.foldl_cons]
      rcases ih (decrementRow e.1 e.2 r) with h | h
      · rw [h]
        rcases decrementRow_cases e.1 e.2 r with h2 | h2
        · exact Or.inl h2
        · exact Or.inr h2
      · exact Or.inr h

/-- C1: stock never becomes negative and untracked items are no-ops.  For
every sequence of decrement entries applied to the menu table: an
untracked row is left unchanged; a row's final stock is either its
untouched initial value or a non-negative value written by a decrement
(so a decrement can never make it negative); and each decrement writes
exactly `max (current - requested) 0` to a tracked matching row. -/
theorem decrement_stock_never_negative (ops : List (String × Int)) (s : List MenuItem)
    (i : Nat) (r r' : MenuItem) (hr : s[i]? = some r)
    (hr' : (decrement_menu_item_stock ops s)[i]? = some r') :
    (r.track_inventory.getD false = false → r' = r)
    ∧ (∀ n, r'.stock_quantity = some n → 0 ≤ n ∨ r.stock_quantity = some n)
    ∧ (∀ (e : String) (q : Int), r.track_inventory.getD false = true → r.id = e →
        (decrementRow e q r).stock_quantity = some (max (r.stock_quantity.getD 0 - q) 0)) := by
  have hmap := decrement_eq_map ops s
  rw [hmap, List.getElem?_map, hr] at hr'
  have hr'' : ops.foldl (fun x e => decrementRow e.1 e.2 x) r = r' := by
    simpa using hr'
  refine ⟨?_, ?_, ?_⟩
  · intro huntracked
    rw [← hr'']
    exact foldRow_untracked ops r huntracked
  · intro n hn
    rcases foldRow_stock ops r with h | h
    · right
      rw [← hn, ← hr'', h]
    · rcases h with ⟨m, hm, hms⟩
      left
      rw [hr''] at hms
      rw [hn] at hms
      have : n = m := Option.some.inj hms
      omega
  · intro e q htr hid
    unfold decrementRow
    have hbeq : (r.id == e) = true := by
      rw [hid]
      exact beq_self_eq_true e
    rw [htr, hbeq]
    simp only [Bool.and_self, if_true]
    unfold sync_menu_item_availability
    simp only [htr, if_true]
    have hclamp :
        max (max (r.stock_quantity.getD 0 - q) 0) 0 = max (r.stock_quantity.getD 0 - q) 0 :=
      max_eq_left (le_max_right _ _)
    split <;> simp [hclamp]

def wMenuA : MenuItem :=
  { id := "A1", name := "Dog Food 1kg", track_inventory := some true,
    stock_quantity := some 10, low_stock_threshold := some 2, available := true }

def wMenuA7 : MenuItem :=
  { id := "A1", name := "Dog Food 1kg", track_inventory := some true,
    stock_quantity := some 7, low_stock_threshold := some 2, available := true }

/-- Witness for C1: a concrete decrement of 3 on an item with stock 10. -/
theorem decrement_stock_never_negative_witness :
    ([wMenuA][0]? = some wMenuA)
    ∧ ((decrement_menu_item_stock [("A1", 3)] [wMenuA])[0]? = some wMenuA7)
    ∧ ((wMenuA.track_inventory.getD false = false → wMenuA7 = wMenuA)
      ∧ (∀ n, wMenuA7.stock_quantity = some n → 0 ≤ n ∨ wMenuA.stock_quantity = some n)
      ∧ (∀ (e : String) (q : Int), wMenuA.track_inventory.getD false = true → wMenuA.id = e →
          (decrementRow e q wMenuA).stock_quantity =
            some (max (wMenuA.stock_quantity.getD 0 - q) 0))) :=
  ⟨by decide, by decide,
    decrement_stock_never_negative [("A1", 3)] [wMenuA] 0 wMenuA wMenuA7
      (by decide) (by decide)⟩

/-- C2: availability preservation and recomputation.  For a write to a row
with inventory tracking enabled, whose stored quantity and threshold are
well-formed (present and non-negative): if the write changes neither the
quantity, the threshold, nor the tracking flag, the trigger leaves the
written `available` value untouched (a manual override survives); if the
write changes quantity, threshold or the tracking flag, the trigger
recomputes `available = quantity > threshold`. -/
theorem availability_recompute_rule (orow nrow : MenuItem) (osq oth : Int)
    (htr : nrow.track_inventory.getD false = true)
    (h1 : orow.stock_quantity = some osq) (h2 : 0 ≤ osq)
    (h3 : orow.low_stock_threshold = some oth) (h4 : 0 ≤ oth) :
    ((nrow.stock_quantity = some osq ∧ nrow.low_stock_threshold = some oth ∧
        nrow.track_inventory = orow.track_inventory) →
      (sync_menu_item_availability orow nrow).available = nrow.available)
    ∧ (∀ nsq nth : Int, nrow.stock_quantity = some nsq → 0 ≤ nsq →
        nrow.low_stock_threshold = some nth → 0 ≤ nth →
        (nsq ≠ osq ∨ nth ≠ oth ∨ nrow.track_inventory ≠ orow.track_inventory) →
        ((sync_menu_item_availability orow nrow).available = true ↔ nth < nsq)) := by
  constructor
  · rintro ⟨e1, e2, e3⟩
    unfold sync_menu_item_availability
    rw [htr]
    simp only [if_true]
    rw [e1, e2, e3, h1, h3]
    have c1 : max osq 0 = osq := max_eq_left h2
    have c2 : max oth 0 = oth := max_eq_left h4
    simp [c1, c2]
  · intro nsq nth e1 e5 e2 e6 hdiff
    unfold sync_menu_item_availability
    rw [htr]
    simp only [if_true]
    rw [e1, e2, h1, h3]
    have c1 : max nsq 0 = nsq := max_eq_left e5
    have c2 : max nth 0 = nth := max_eq_left e6
    simp only [Option.getD_some, c1, c2]
    have hcond : some osq ≠ some nsq ∨ some oth ≠ some nth ∨
        orow.track_inventory ≠ nrow.track_inventory := by
      rcases hdiff with h | h | h
      · left; intro hc; exact h (Option.some.inj hc).symm
      · right; left; intro hc; exact h (Option.some.inj hc).symm
      · right; right; exact fun hc => h hc.symm
    rw [if_pos hcond]
    show (if nsq ≤ nth then false else true) = true ↔ nth < nsq
    split <;> rename_i hle <;> simp <;> omega

def wOldB : MenuItem :=
  { id := "B1", name := "Cat Toy", track_inventory := some true,
    stock_quantity := some 5, low_stock_threshold := some 3, available := false }

def wNewB : MenuItem :=
  { id := "B1", name := "Cat Toy Deluxe", track_inventory := some true,
    stock_quantity := some 5, low_stock_threshold := some 3, available := false }

/-- Witness for C2: a write changing only a cosmetic field (the name)
keeps a manually set `available = false` even though stock 5 > threshold 3. -/
theorem availability_recompute_rule_witness :
    (((wNewB.stock_quantity = some 5 ∧ wNewB.low_stock_threshold = some 3 ∧
        wNewB.track_inventory = wOldB.track_inventory) →
      (sync_menu_item_availability wOldB wNewB).available = wNewB.available)
    ∧ (∀ nsq nth : Int, wNewB.stock_quantity = some nsq → 0 ≤ nsq →
        wNewB.low_stock_threshold = some nth → 0 ≤ nth →
        (nsq ≠ 5 ∨ nth ≠ 3 ∨ wNewB.track_inventory ≠ wOldB.track_inventory) →
        ((sync_menu_item_availability wOldB wNewB).available = true ↔ nth < nsq))) :=
  availability_recompute_rule wOldB wNewB 5 3 (by decide) (by decide) (by decide)
    (by decide) (by decide)

/-! ## Order submission pipeline (`createOrder` in `src/hooks/useOrders.ts`) -/

/-- A selected variation captured by value on a line item. -/
structure Variation where
  vid : String
  name : String
  price : Int
  deriving DecidableEq

/-- A selected add-on captured by value on a line item; the persisted
quantity defaults to 1 when absent (`a.quantity ?? 1`). -/
structure AddOn where
  aid : String
  name : String
  price : Int
  quantity : Option Int
  deriving DecidableEq

/-- A cart line item as submitted to `createOrder`. -/
structure CartItem where
  id : String
  menuItemId : Option String
  name : String
  totalPrice : Int
  quantity : Int
  selectedVariation : Option Variation
  selectedAddOns : List AddOn
  deriving DecidableEq

/-- The order submission payload (customer, service, payment and cart). -/
structure OrderPayload where
  customerName : String
  contactNumber : String
  serviceType : String
  address : Option String
  pickupTime : Option String
  partySize : Option Int
  dineInTime : Option String
  paymentMethod : String
  referenceNumber : Option String
  notes : Option String
  total : Int
  receiptUrl : Option String
  items : List CartItem
  deriving DecidableEq

/-- A row of the `orders` table. -/
structure OrderRow where
  id : Nat
  customer_name : String
  contact_number : String
  service_type : String
  address : Option String
  pickup_time : Option String
  party_size : Option Int
  dine_in_time : Option String
  payment_method : String
  reference_number : Option String
  notes : Option String
  total : Int
  status : String
  ip_address : Option String
  receipt_url : Option String
  created_at : Int
  deriving DecidableEq

/-- A row of the `order_items` table. -/
structure OrderItemRow where
  order_id : Nat
  item_id : String
  name : String
  variation : Option Variation
  add_ons : Option (List AddOn)
  unit_price : Int
  quantity : Int
  subtotal : Int
  deriving DecidableEq

/-- The persistent state the order engine touches. -/
structure DBState where
  menu_items : List MenuItem
  orders : List OrderRow
  order_items : List OrderItemRow
  next_order_id : Nat
  deriving DecidableEq

/-- Typed failures of the submission pipeline.  In the source,
`rateLimited` and `missingIdentifier` are surfaced to the user with the
same generic message, but they are distinct conditions of the trigger. -/
inductive OrderError where
  | insufficientStock (name : String) (available requested : Int)
  | rateLimited
  | missingIdentifier
  | persistenceError
  deriving DecidableEq

/-- Result of a submission: an order id plus a flag recording that the
stock decrement failed and was downgraded to a warning, or a typed error. -/
inductive OrderResult where
  | ok (orderId : Nat) (decrementWarned : Bool)
  | err (e : OrderError)
  deriving DecidableEq

/-- Storage-failure injection points for the three write phases. -/
structure FailureSpec where
  failHeader : Bool
  failItems : Bool
  failDecrement : Bool
  deriving DecidableEq

/-- No failure injected. -/
def noFail : FailureSpec := ⟨false, false, false⟩

/-- Pipeline steps, recorded in execution order. -/
inductive Step where
  | stockCheck
  | rateCheck
  | headerInsert
  | itemsInsert
  | stockDecrement
  deriving DecidableEq

/-- The trace of a run that reaches the end of the pipeline. -/
def fullTrace : List Step :=
  [Step.stockCheck, Step.rateCheck, Step.headerInsert, Step.itemsInsert, Step.stockDecrement]

/-- The catalog item a cart line resolves to: `ci.menuItemId || ci.id`
(JavaScript `||`, so an empty `menuItemId` also falls back to `ci.id`). -/
def cartItemId (ci : CartItem) : String :=
  match ci.menuItemId with
  | some m => if m = "" then ci.id else m
  | none => ci.id

/-- Modelled from the spec: the construction of `stockAdjustments` in
`useOrders.ts` is not among the source excerpts; per spec section 4.3
step 3, quantities of line items referencing the same catalog item are
summed before comparison. -/
def stockAdjustments (items : List CartItem) (mid : String) : Int :=
  ((items.filter (fun ci => cartItemId ci == mid)).map (fun ci => ci.quantity)).sum

/-- The distinct catalog item ids referenced by the cart. -/
def stockedItemIds (items : List CartItem) : List String :=
  (items.map cartItemId).eraseDups

/-- The aggregated `(id, quantity)` entries sent to the decrement RPC. -/
def inventoryPayload (items : List CartItem) : List (String × Int) :=
  (stockedItemIds items).map (fun mid => (mid, stockAdjustments items mid))

/-- Phase 1 read: the `menu_items` rows whose id is referenced by the cart
(`.in('id', stockedItemIds)`). -/
def inventorySnapshot (menu : List MenuItem) (items : List CartItem) : List MenuItem :=
  menu.filter (fun r => (stockedItemIds items).contains r.id)

/-- Phase 1 check: the first snapshot row with tracking on and
`(stock_quantity ?? 0) < stockAdjustments[row.id]`. -/
def findInsufficient (menu : List MenuItem) (items : List CartItem) : Option MenuItem :=
  (inventorySnapshot menu items).find? (fun r =>
    r.track_inventory.getD false && decide (r.stock_quantity.getD 0 < stockAdjustments items r.id))

/-- Orders counted by the rate-limit trigger against the client address:
`ip_address = NEW.ip_address AND created_at >= now() - interval '60 seconds'`
(an absent address matches no row, as SQL `=` against NULL). -/
def recentIpCount (orders : List OrderRow) (now : Int) (ip : Option String) : Nat :=
  match ip with
  | none => 0
  | some a => (orders.filter (fun o =>
      o.ip_address == some a && decide (now - 60 ≤ o.created_at))).length

/-- Leading whitespace removed. -/
def dropSpaces (l : List Char) : List Char := l.dropWhile (fun c => c.isWhitespace)

/-- Executable embedding of SQL `trim` (and JS `.trim()`): whitespace
stripped from both ends. -/
def strTrim (s : String) : String := String.mk (dropSpaces ((dropSpaces s.toList.reverse)).reverse)

/-- Orders counted by the hardened trigger against the contact number,
guarded by `contact_number IS NOT NULL AND length(trim(contact_number)) > 0`. -/
def recentPhoneCount (orders : List OrderRow) (now : Int) (phone : String) : Nat :=
  if 0 < (strTrim phone).length then
    (orders.filter (fun o =>
      o.contact_number == phone && decide (now - 60 ≤ o.created_at))).length
  else 0

/-- The hardened BEFORE INSERT trigger `prevent_spam_orders_per_ip`:
counts recent orders per address and per contact number and rejects when
either count is positive.  Modelled from the spec where the doc excerpt
elides it: the requirement that at least one identifier be present
(rejected as `missingIdentifier`) and the raise on a positive phone count,
per spec sections 4.2 and 7. -/
def presentTrim : Option String → Bool
  | some a => decide (0 < (strTrim a).length)
  | none => false

def prevent_spam_orders (orders : List OrderRow) (now : Int) (ip : Option String)
    (phone : String) : Except OrderError Unit :=
  if !presentTrim ip && !presentTrim (some phone) then
    Except.error OrderError.missingIdentifier
  else if 0 < recentIpCount orders now ip then Except.error OrderError.rateLimited
  else if 0 < recentPhoneCount orders now phone then Except.error OrderError.rateLimited
  else Except.ok ()

/-- The `orders` header row inserted by Phase 2. -/
def mkOrderRow (p : OrderPayload) (now : Int) (ip : Option String) (oid : Nat) : OrderRow :=
  { id := oid, customer_name := p.customerName, contact_number := p.contactNumber,
    service_type := p.serviceType, address := p.address, pickup_time := p.pickupTime,
    party_size := p.partySize, dine_in_time := p.dineInTime,
    payment_method := p.paymentMethod, reference_number := p.referenceNumber,
    notes := p.notes, total := p.total, status := "pending", ip_address := ip,
    receipt_url := p.receiptUrl, created_at := now }

/-- The `order_items` rows inserted by Phase 3 (one per cart line:
`unit_price = ci.totalPrice`, `subtotal = ci.totalPrice * ci.quantity`,
add-ons persisted only when the list is non-empty). -/
def mkItemRows (p : OrderPayload) (oid : Nat) : List OrderItemRow :=
  p.items.map (fun ci =>
    { order_id := oid, item_id := cartItemId ci, name := ci.name,
      variation := ci.selectedVariation,
      add_ons := if 0 < ci.selectedAddOns.length then
          some (ci.selectedAddOns.map (fun a => { a with quantity := some (a.quantity.getD 1) }))
        else none,
      unit_price := ci.totalPrice, quantity := ci.quantity,
      subtotal := ci.totalPrice * ci.quantity })

/-- Embedding of `createOrder` (`src/hooks/useOrders.ts`): Phase 1 stock
check, Phase 2 header insert (where the rate-limit trigger fires), Phase 3
line-item insert — a separate statement, not a transaction with Phase 2 —
and Phase 4 stock decrement.  A Phase 4 failure is reported as a warning
while the submission still succeeds (modelled from the spec, section 4.3
step 6, where the excerpt elides the error handling).  The returned trace
records the steps that executed, in order. -/
def createOrder (s : DBState) (now : Int) (ip : Option String) (p : OrderPayload)
    (inj : FailureSpec) : OrderResult × DBState × List Step :=
  match findInsufficient s.menu_items p.items with
  | some row =>
      (OrderResult.err (OrderError.insufficientStock row.name (row.stock_quantity.getD 0)
        (stockAdjustments p.items row.id)), s, [Step.stockCheck])
  | none =>
      match prevent_spam_orders s.orders now ip p.contactNumber with
      | Except.error e => (OrderResult.err e, s, [Step.stockCheck, Step.rateCheck])
      | Except.ok _ =>
          if inj.failHeader then
            (OrderResult.err OrderError.persistenceError, s,
              [Step.stockCheck, Step.rateCheck, Step.headerInsert])
          else
            let oid := s.next_order_id
            let s1 := { s with orders := s.orders ++ [mkOrderRow p now ip oid],
                               next_order_id := oid + 1 }
            if inj.failItems then
              (OrderResult.err OrderError.persistenceError, s1,
                [Step.stockCheck, Step.rateCheck, Step.headerInsert, Step.itemsInsert])
            else
              let s2 := { s1 with order_items := s1.order_items ++ mkItemRows p oid }
              if inj.failDecrement then
                (OrderResult.ok oid true, s2, fullTrace)
              else
                (OrderResult.ok oid false,
                  { s2 with menu_items :=
                      decrement_menu_item_stock (inventoryPayload p.items) s2.menu_items },
                  fullTrace)

/-- The state after a fully successful submission. -/
def afterSuccess (s : DBState) (now : Int) (ip : Option String) (p : OrderPayload) : DBState :=
  { menu_items := decrement_menu_item_stock (inventoryPayload p.items) s.menu_items,
    orders := s.orders ++ [mkOrderRow p now ip s.next_order_id],
    order_items := s.order_items ++ mkItemRows p s.next_order_id,
    next_order_id := s.next_order_id + 1 }

lemma createOrder_stockFail (s : DBState) (now : Int) (ip : Option String) (p : OrderPayload)
    (inj : FailureSpec) (row : MenuItem)
    (h : findInsufficient s.menu_items p.items = some row) :
    createOrder s now ip p inj =
      (OrderResult.err (OrderError.insufficientStock row.name (row.stock_quantity.getD 0)
        (stockAdjustments p.items row.id)), s, [Step.stockCheck]) := by
  unfold createOrder
  rw [h]

lemma createOrder_rateFail (s : DBState) (now : Int) (ip : Option String) (p : OrderPayload)
    (inj : FailureSpec) (e : OrderError)
    (h1 : findInsufficient s.menu_items p.items = none)
    (h2 : prevent_spam_orders s.orders now ip p.contactNumber = Except.error e) :
    createOrder s now ip p inj = (OrderResult.err e, s, [Step.stockCheck, Step.rateCheck]) := by
  unfold createOrder
  rw [h1, h2]

lemma createOrder_success (s : DBState) (now : Int) (ip : Option String) (p : OrderPayload)
    (h1 : findInsufficient s.menu_items p.items = none)
    (h2 : prevent_spam_orders s.orders now ip p.contactNumber = Except.ok ()) :
    createOrder s now ip p noFail =
      (OrderResult.ok s.next_order_id false, afterSuccess s now ip p, fullTrace) := by
  unfold createOrder
  rw [h1, h2]
  rfl

lemma prevent_spam_only_rate_errors (orders : List OrderRow) (now : Int) (ip : Option String)
    (phone : String) (e : OrderError)
    (h : prevent_spam_orders orders now ip phone = Except.error e) :
    e = OrderError.rateLimited ∨ e = OrderError.missingIdentifier := by
  unfold prevent_spam_orders at h
  split at h
  · right; exact (Except.error.inj h).symm
  · split at h
    · left; exact (Except.error.inj h).symm
    · split at h
      · left; exact (Except.error.inj h).symm
      · cases h

/-! ## Concrete fixtures shared by witnesses and counterexamples -/

def cartW (q : Int) : CartItem :=
  { id := "A1", menuItemId := none, name := "Dog Food 1kg", totalPrice := 250,
    quantity := q, selectedVariation := none, selectedAddOns := [] }

def payloadW (contact : String) (total : Int) (items : List CartItem) : OrderPayload :=
  { customerName := "Jane Doe", contactNumber := contact, serviceType := "pickup",
    address := none, pickupTime := some "15-20 min", partySize := none, dineInTime := none,
    paymentMethod := "GCash", referenceNumber := none, notes := none, total := total,
    receiptUrl := none, items := items }

def stateW (menu : List MenuItem) : DBState :=
  { menu_items := menu, orders := [], order_items := [], next_order_id := 0 }

def wMenuA6 : MenuItem :=
  { id := "A1", name := "Dog Food 1kg", track_inventory := some true,
    stock_quantity := some 6, low_stock_threshold := some 2, available := true }

/-! ## Claims about the pipeline -/

/-- C3 (code evidence): injecting a storage failure at the Phase 3
line-item insert leaves the already-inserted order header (id 0) in the
`orders` table with no `order_items` rows at all — the two inserts are
separate statements, not one atomic transaction, and nothing rolls the
header back. -/
theorem header_without_items_on_item_failure :
    ((createOrder (stateW [wMenuA]) 0 (some "203.0.113.7")
        (payloadW "09171234567" 500 [cartW 2]) ⟨false, true, false⟩).1 =
      OrderResult.err OrderError.persistenceError)
    ∧ (((createOrder (stateW [wMenuA]) 0 (some "203.0.113.7")
        (payloadW "09171234567" 500 [cartW 2]) ⟨false, true, false⟩).2.1.orders.map
          (fun o => o.id)) = [0])
    ∧ ((createOrder (stateW [wMenuA]) 0 (some "203.0.113.7")
        (payloadW "09171234567" 500 [cartW 2]) ⟨false, true, false⟩).2.1.order_items = []) := by
  decide

/-- C5 (counterexample): a submission with no client address and an empty
contact number is rejected by the rate gate as `missingIdentifier`, yet
the stock check has already executed — the gate fires at insert time,
after Phase 1, so "no stock check occurs" is false. -/
theorem rate_gate_counterexample :
    ((createOrder (stateW [wMenuA]) 0 none (payloadW "" 500 [cartW 2]) noFail).1 =
      OrderResult.err OrderError.missingIdentifier)
    ∧ Step.stockCheck ∈
        (createOrder (stateW [wMenuA]) 0 none (payloadW "" 500 [cartW 2]) noFail).2.2 := by
  decide

/-- C5 (amended): the rate gate is evaluated at order-insert time, after
the side-effect-free stock check; when it rejects — with `rateLimited` or
`missingIdentifier`, the only errors it produces — no further step
executes: nothing is persisted, no stock changes, and the trace ends at
the gate. -/
theorem rate_gate_after_stock_check (s : DBState) (now : Int) (ip : Option String)
    (p : OrderPayload) (inj : FailureSpec) (e : OrderError)
    (hstock : findInsufficient s.menu_items p.items = none)
    (hrate : prevent_spam_orders s.orders now ip p.contactNumber = Except.error e) :
    createOrder s now ip p inj = (OrderResult.err e, s, [Step.stockCheck, Step.rateCheck])
    ∧ (e = OrderError.rateLimited ∨ e = OrderError.missingIdentifier) :=
  ⟨createOrder_rateFail s now ip p inj e hstock hrate,
    prevent_spam_only_rate_errors s.orders now ip p.contactNumber e hrate⟩

/-- Witness for the amended C5 at the concrete missing-identifier input. -/
theorem rate_gate_after_stock_check_witness :
    createOrder (stateW [wMenuA]) 0 none (payloadW "" 500 [cartW 2]) noFail =
      (OrderResult.err OrderError.missingIdentifier, stateW [wMenuA],
        [Step.stockCheck, Step.rateCheck])
    ∧ (OrderError.missingIdentifier = OrderError.rateLimited ∨
        OrderError.missingIdentifier = OrderError.missingIdentifier) :=
  rate_gate_after_stock_check (stateW [wMenuA]) 0 none (payloadW "" 500 [cartW 2]) noFail
    OrderError.missingIdentifier rfl rfl

/-- C6: when some tracked snapshot row has less available stock than the
aggregated requested quantity, `createOrder` fails with
`insufficientStock` carrying the offending item's name and its available
count, and the state is returned unchanged: no order header, no line
items, no stock change. -/
theorem insufficient_stock_aborts (s : DBState) (now : Int) (ip : Option String)
    (p : OrderPayload) (inj : FailureSpec) (r : MenuItem)
    (hr : r ∈ inventorySnapshot s.menu_items p.items)
    (htr : r.track_inventory.getD false = true)
    (hlt : r.stock_quantity.getD 0 < stockAdjustments p.items r.id) :
    ∃ row, findInsufficient s.menu_items p.items = some row
      ∧ row.track_inventory.getD false = true
      ∧ row.stock_quantity.getD 0 < stockAdjustments p.items row.id
      ∧ createOrder s now ip p inj =
          (OrderResult.err (OrderError.insufficientStock row.name (row.stock_quantity.getD 0)
            (stockAdjustments p.items row.id)), s, [Step.stockCheck]) := by
  have hsome : (findInsufficient s.menu_items p.items).isSome := by
    unfold findInsufficient
    rw [List.find?_isSome]
    exact ⟨r, hr, by simp [htr, hlt]⟩
  obtain ⟨row, hrow⟩ := Option.isSome_iff_exists.mp hsome
  have hrow' := hrow
  unfold findInsufficient at hrow'
  have hPr := List.find?_some hrow'
  rw [Bool.and_eq_true] at hPr
  refine ⟨row, hrow, hPr.1, of_decide_eq_true hPr.2, ?_⟩
  exact createOrder_stockFail s now ip p inj row hrow

/-- Witness for C6: one line of quantity 2 against available stock 1. -/
def wMenuA1 : MenuItem :=
  { id := "A1", name := "Dog Food 1kg", track_inventory := some true,
    stock_quantity := some 1, low_stock_threshold := some 2, available := true }

theorem insufficient_stock_aborts_witness :
    (wMenuA1 ∈ inventorySnapshot (stateW [wMenuA1]).menu_items [cartW 2])
    ∧ (wMenuA1.track_inventory.getD false = true)
    ∧ (wMenuA1.stock_quantity.getD 0 < stockAdjustments [cartW 2] wMenuA1.id)
    ∧ ∃ row, findInsufficient (stateW [wMenuA1]).menu_items [cartW 2] = some row
        ∧ row.track_inventory.getD false = true
        ∧ row.stock_quantity.getD 0 < stockAdjustments [cartW 2] row.id
        ∧ createOrder (stateW [wMenuA1]) 0 (some "203.0.113.7")
            (payloadW "09171234567" 500 [cartW 2]) noFail =
          (OrderResult.err (OrderError.insufficientStock row.name (row.stock_quantity.getD 0)
            (stockAdjustments [cartW 2] row.id)), stateW [wMenuA1], [Step.stockCheck]) :=
  ⟨by decide, by decide, by decide,
    insufficient_stock_aborts (stateW [wMenuA1]) 0 (some "203.0.113.7")
      (payloadW "09171234567" 500 [cartW 2]) noFail wMenuA1
      (by decide) (by decide) (by decide)⟩

/-- C7: the stock check aggregates line items by catalog item — the
requested amount for an item is the sum of the quantities of all line
items resolving to it — and concretely, two lines of quantities 3 and 4
for the same tracked item against stock 6 fail with `insufficientStock`
(6 < 7), with nothing persisted. -/
theorem aggregate_stock_check :
    (∀ (ci1 ci2 : CartItem) (mid : String), cartItemId ci1 = mid → cartItemId ci2 = mid →
      stockAdjustments [ci1, ci2] mid = ci1.quantity + ci2.quantity)
    ∧ createOrder (stateW [wMenuA6]) 0 (some "203.0.113.7")
        (payloadW "09171234567" 1750 [cartW 3, cartW 4]) noFail =
      (OrderResult.err (OrderError.insufficientStock "Dog Food 1kg" 6 7),
        stateW [wMenuA6], [Step.stockCheck]) := by
  constructor
  · intro ci1 ci2 mid h1 h2
    unfold stockAdjustments
    have b1 : (cartItemId ci1 == mid) = true := by rw [h1]; exact beq_self_eq_true mid
    have b2 : (cartItemId ci2 == mid) = true := by rw [h2]; exact beq_self_eq_true mid
    simp [List.filter_cons, b1, b2]
  · decide

/-- Witness for C7's aggregation clause at the concrete 3 + 4 cart. -/
theorem aggregate_stock_check_witness :
    stockAdjustments [cartW 3, cartW 4] "A1" = (cartW 3).quantity + (cartW 4).quantity :=
  aggregate_stock_check.1 (cartW 3) (cartW 4) "A1" rfl rfl

/-- C8 (counterexample): the code persists the caller-supplied total
without recomputation — a submission whose only line item subtotals to
500 but whose claimed total is 999 succeeds, and the persisted header
total is 999, not the 500 sum of line-item subtotals. -/
theorem trusted_total_counterexample :
    ((createOrder (stateW [wMenuA]) 0 (some "203.0.113.7")
        (payloadW "09171234567" 999 [cartW 2]) noFail).1 = OrderResult.ok 0 false)
    ∧ (((createOrder (stateW [wMenuA]) 0 (some "203.0.113.7")
        (payloadW "09171234567" 999 [cartW 2]) noFail).2.1.orders.map
          (fun o => o.total)) = [999])
    ∧ (((createOrder (stateW [wMenuA]) 0 (some "203.0.113.7")
        (payloadW "09171234567" 999 [cartW 2]) noFail).2.1.order_items.map
          (fun r => r.subtotal)) = [500])
    ∧ (999 : Int) ≠ 500 := by
  decide

/-- C8 (amended): on success the persisted header total equals the
caller-supplied payload total, each persisted line item's subtotal equals
`unitPrice × quantity`, and the header total equals the sum of the line
items' subtotals exactly when the caller supplies that sum — the code
does not recompute or validate it. -/
theorem order_total_amended (s : DBState) (now : Int) (ip : Option String) (p : OrderPayload)
    (hstock : findInsufficient s.menu_items p.items = none)
    (hrate : prevent_spam_orders s.orders now ip p.contactNumber = Except.ok ()) :
    createOrder s now ip p noFail =
      (OrderResult.ok s.next_order_id false, afterSuccess s now ip p, fullTrace)
    ∧ (afterSuccess s now ip p).orders = s.orders ++ [mkOrderRow p now ip s.next_order_id]
    ∧ (mkOrderRow p now ip s.next_order_id).total = p.total
    ∧ (afterSuccess s now ip p).order_items = s.order_items ++ mkItemRows p s.next_order_id
    ∧ (∀ rrow ∈ mkItemRows p s.next_order_id, rrow.subtotal = rrow.unit_price * rrow.quantity)
    ∧ (p.total = (p.items.map (fun ci => ci.totalPrice * ci.quantity)).sum →
        (mkOrderRow p now ip s.next_order_id).total =
          ((mkItemRows p s.next_order_id).map (fun rrow => rrow.subtotal)).sum) := by
  refine ⟨createOrder_success s now ip p hstock hrate, rfl, rfl, rfl, ?_, ?_⟩
  · intro rrow hm
    unfold mkItemRows at hm
    obtain ⟨ci, _, rfl⟩ := List.mem_map.mp hm
    rfl
  · intro he
    show p.total = _
    rw [he]
    unfold mkItemRows
    rw [List.map_map]
    rfl

/-- Witness for the amended C8 at a concrete consistent submission. -/
theorem order_total_amended_witness :
    createOrder (stateW [wMenuA]) 0 (some "203.0.113.7")
        (payloadW "09171234567" 500 [cartW 2]) noFail =
      (OrderResult.ok 0 false,
        afterSuccess (stateW [wMenuA]) 0 (some "203.0.113.7")
          (payloadW "09171234567" 500 [cartW 2]), fullTrace) :=
  (order_total_amended (stateW [wMenuA]) 0 (some "203.0.113.7")
    (payloadW "09171234567" 500 [cartW 2]) rfl rfl).1

/-- C9: when the header and line items persist but the Phase 4 stock
decrement fails, the submission is still reported successful — the result
is `ok` with the warning flag set, the order and its items remain
persisted, and the menu (stock) is simply left unchanged; the failure
never reverses the order. -/
theorem decrement_failure_nonfatal (s : DBState) (now : Int) (ip : Option String)
    (p : OrderPayload)
    (hstock : findInsufficient s.menu_items p.items = none)
    (hrate : prevent_spam_orders s.orders now ip p.contactNumber = Except.ok ()) :
    createOrder s now ip p ⟨false, false, true⟩ =
      (OrderResult.ok s.next_order_id true,
        { s with orders := s.orders ++ [mkOrderRow p now ip s.next_order_id],
                 order_items := s.order_items ++ mkItemRows p s.next_order_id,
                 next_order_id := s.next_order_id + 1 },
        fullTrace) := by
  unfold createOrder
  rw [hstock, hrate]
  rfl

/-- Witness for C9 at a concrete submission with a failing decrement. -/
theorem decrement_failure_nonfatal_witness :
    createOrder (stateW [wMenuA]) 0 (some "203.0.113.7")
        (payloadW "09171234567" 500 [cartW 2]) ⟨false, false, true⟩ =
      (OrderResult.ok 0 true,
        { stateW [wMenuA] with
            orders := (stateW [wMenuA]).orders ++
              [mkOrderRow (payloadW "09171234567" 500 [cartW 2]) 0 (some "203.0.113.7") 0],
            order_items := (stateW [wMenuA]).order_items ++
              mkItemRows (payloadW "09171234567" 500 [cartW 2]) 0,
            next_order_id := 1 },
        fullTrace) :=
  decrement_failure_nonfatal (stateW [wMenuA]) 0 (some "203.0.113.7")
    (payloadW "09171234567" 500 [cartW 2]) rfl rfl

/-! ## C4: the rate-limit window across consecutive submissions -/

lemma mem_filter_length_pos {α : Type} (p : α → Bool) (l : List α) (x : α)
    (hx : x ∈ l) (hp : p x = true) : 0 < (l.filter p).length := by
  have hm : x ∈ l.filter p := List.mem_filter.mpr ⟨hx, hp⟩
  exact List.length_pos.mpr (List.ne_nil_of_mem hm)

lemma recentIpCount_append (a b : List OrderRow) (now : Int) (ip : Option String) :
    recentIpCount (a ++ b) now ip = recentIpCount a now ip + recentIpCount b now ip := by
  cases ip <;> simp [recentIpCount, List.filter_append]

lemma recentPhoneCount_append (a b : List OrderRow) (now : Int) (phone : String) :
    recentPhoneCount (a ++ b) now phone =
      recentPhoneCount a now phone + recentPhoneCount b now phone := by
  unfold recentPhoneCount
  split <;> simp [List.filter_append]

/-- C4: for a submission identifier (the client address and/or a non-blank
contact number), a first admissible submission succeeds; any second
submission sharing the identifier within the 60-second window is rejected
with `rateLimited` at the insert gate, whatever failures are injected, and
leaves the store untouched, so the two never both produce orders; and a
third submission after the window has passed (with no other recent orders
for its identifiers) succeeds again. -/
theorem rate_limit_window (s0 : DBState) (now1 now2 now3 : Int) (ip : Option String)
    (p1 p2 p3 : OrderPayload)
    (hstock1 : findInsufficient s0.menu_items p1.items = none)
    (hrate1 : prevent_spam_orders s0.orders now1 ip p1.contactNumber = Except.ok ())
    (hid2 : (∃ a, ip = some a ∧ 0 < (strTrim a).length) ∨
      (p2.contactNumber = p1.contactNumber ∧ 0 < (strTrim p2.contactNumber).length))
    (hw2 : now2 - 60 ≤ now1)
    (hstock2 : findInsufficient (afterSuccess s0 now1 ip p1).menu_items p2.items = none)
    (hsame3 : p3.contactNumber = p1.contactNumber)
    (hphone3 : 0 < (strTrim p3.contactNumber).length)
    (hw3 : ¬ now3 - 60 ≤ now1)
    (hip3 : recentIpCount s0.orders now3 ip = 0)
    (hph3 : recentPhoneCount s0.orders now3 p3.contactNumber = 0)
    (hstock3 : findInsufficient (afterSuccess s0 now1 ip p1).menu_items p3.items = none) :
    createOrder s0 now1 ip p1 noFail =
      (OrderResult.ok s0.next_order_id false, afterSuccess s0 now1 ip p1, fullTrace)
    ∧ (∀ inj, createOrder (afterSuccess s0 now1 ip p1) now2 ip p2 inj =
        (OrderResult.err OrderError.rateLimited, afterSuccess s0 now1 ip p1,
          [Step.stockCheck, Step.rateCheck]))
    ∧ createOrder (afterSuccess s0 now1 ip p1) now3 ip p3 noFail =
        (OrderResult.ok (s0.next_order_id + 1) false,
          afterSuccess (afterSuccess s0 now1 ip p1) now3 ip p3, fullTrace) := by
  have hhdr : (afterSuccess s0 now1 ip p1).orders =
      s0.orders ++ [mkOrderRow p1 now1 ip s0.next_order_id] := rfl
  have hmem : mkOrderRow p1 now1 ip s0.next_order_id ∈ (afterSuccess s0 now1 ip p1).orders := by
    rw [hhdr]
    exact List.mem_append_right _ (List.mem_singleton_self _)
  refine ⟨createOrder_success s0 now1 ip p1 hstock1 hrate1, ?_, ?_⟩
  · intro inj
    apply createOrder_rateFail _ _ _ _ _ _ hstock2
    have hor : 0 < recentIpCount (afterSuccess s0 now1 ip p1).orders now2 ip ∨
        0 < recentPhoneCount (afterSuccess s0 now1 ip p1).orders now2 p2.contactNumber := by
      cases hip : ip with
      | some a =>
          left
          unfold recentIpCount
          apply mem_filter_length_pos _ _ (mkOrderRow p1 now1 ip s0.next_order_id)
          · rw [← hip]; exact hmem
          · simp [mkOrderRow, hip, hw2]
      | none =>
          rcases hid2 with ⟨a, ha, _⟩ | ⟨hsame2, hlen2⟩
          · rw [hip] at ha; cases ha
          · right
            unfold recentPhoneCount
            rw [if_pos hlen2]
            apply mem_filter_length_pos _ _ (mkOrderRow p1 now1 ip s0.next_order_id)
            · rw [← hip]; exact hmem
            · simp [mkOrderRow, hsame2, hw2]
    have hmiss : (!presentTrim ip && !presentTrim (some p2.contactNumber)) = false := by
      rcases hid2 with ⟨a, ha, hlen⟩ | ⟨_, hlen⟩
      · subst ha; simp [presentTrim, hlen]
      · simp [presentTrim, hlen]
    unfold prevent_spam_orders
    rw [hmiss, if_neg Bool.false_ne_true]
    rcases hor with h | h
    · rw [if_pos h]
    · by_cases hic : 0 < recentIpCount (afterSuccess s0 now1 ip p1).orders now2 ip
      · rw [if_pos hic]
      · rw [if_neg hic, if_pos h]
  · have h3 : prevent_spam_orders (afterSuccess s0 now1 ip p1).orders now3 ip
        p3.contactNumber = Except.ok () := by
      have hmiss : (!presentTrim ip && !presentTrim (some p3.contactNumber)) = false := by
        simp [presentTrim, hphone3]
      have hic : recentIpCount (afterSuccess s0 now1 ip p1).orders now3 ip = 0 := by
        rw [hhdr, recentIpCount_append, hip3]
        cases hip : ip with
        | none => rfl
        | some a =>
            simp [recentIpCount, mkOrderRow]
            omega
      have hpc : recentPhoneCount (afterSuccess s0 now1 ip p1).orders now3 p3.contactNumber
          = 0 := by
        rw [hhdr, recentPhoneCount_append, hph3]
        unfold recentPhoneCount
        rw [if_pos hphone3]
        simp [mkOrderRow]
        intro _
        omega
      unfold prevent_spam_orders
      rw [hmiss, if_neg Bool.false_ne_true, hic, hpc]
      rfl
    exact createOrder_success (afterSuccess s0 now1 ip p1) now3 ip p3 hstock3 h3

/-- Witness for C4: first order at t=0 succeeds, a second from the same
address and contact at t=30 is rate-limited. -/
theorem rate_limit_window_witness :
    createOrder (afterSuccess (stateW [wMenuA]) 0 (some "203.0.113.7")
        (payloadW "09171234567" 500 [cartW 2])) 30 (some "203.0.113.7")
        (payloadW "09171234567" 250 [cartW 1]) noFail =
      (OrderResult.err OrderError.rateLimited,
        afterSuccess (stateW [wMenuA]) 0 (some "203.0.113.7")
          (payloadW "09171234567" 500 [cartW 2]),
        [Step.stockCheck, Step.rateCheck]) :=
  (rate_limit_window (stateW [wMenuA]) 0 30 100 (some "203.0.113.7")
    (payloadW "09171234567" 500 [cartW 2]) (payloadW "09171234567" 250 [cartW 1])
    (payloadW "09171234567" 250 [cartW 1])
    rfl rfl (Or.inl ⟨"203.0.113.7", rfl, by decide⟩) (by decide) (by decide)
    rfl (by decide) (by decide) rfl rfl (by decide)).2.1 noFail

/-! ## C10: `search_order_by_id`
(`supabase/migrations/20250116000000_add_order_search_function.sql`) -/

/-- Does `needle` occur as a contiguous segment of `hay`? -/
def hasSub : List Char → List Char → Bool
  | [], n => n.isEmpty
  | c :: t, n => n.isPrefixOf (c :: t) || hasSub t n

/-- The characters of a string, lowercased. -/
def lowerList (s : String) : List Char := s.toList.map Char.toLower

/-- Written from the spec's words, for comparison with the embedded SQL
matcher: "matches orders whose opaque identifier contains the fragment
(case-insensitive)". -/
def containsCI (frag hay : String) : Bool := hasSub (lowerList hay) (lowerList frag)

/-- All contiguous tail segments of a list, the original and `[]` included. -/
def allTails : List Char → List (List Char)
  | [] => [[]]
  | c :: ts => (c :: ts) :: allTails ts

/-- SQL `ILIKE` pattern matching (pattern against text): `%` matches any
sequence, `_` matches exactly one character, a backslash escapes the next
pattern character (a trailing lone backslash matches nothing), and plain
characters compare case-insensitively. -/
def ilikeMatch : List Char → List Char → Bool
  | [], t => t.isEmpty
  | c :: ps, t =>
      if c = '%' then (allTails t).any (fun s => ilikeMatch ps s)
      else if c = '_' then
        match t with
        | [] => false
        | _ :: ts => ilikeMatch ps ts
      else if c = '\\' then
        match ps with
        | [] => false
        | e :: ps' =>
            match t with
            | [] => false
            | d :: ts => (e.toLower == d.toLower) && ilikeMatch ps' ts
      else
        match t with
        | [] => false
        | d :: ts => (c.toLower == d.toLower) && ilikeMatch ps ts

/-- The pattern `'%' || search_term || '%'` built by the SQL function. -/
def ilikePattern (term : String) : List Char := '%' :: (term.toList ++ ['%'])

/-- The identifier's text projection, `o.id::text` in the SQL function. -/
def uuidText (o : OrderRow) : String := toString o.id

/-- The later-timestamp row, folded to realize `ORDER BY created_at DESC
LIMIT 1`. -/
def laterOf (acc : Option OrderRow) (o : OrderRow) : Option OrderRow :=
  match acc with
  | none => some o
  | some b => if b.created_at < o.created_at then some o else some b

/-- A row with maximal `created_at`, or `none` for the empty list. -/
def pickLatest (l : List OrderRow) : Option OrderRow := l.foldl laterOf none

/-- Embedding of the SQL function `search_order_by_id(search_term)`:
`SELECT ... FROM orders o WHERE o.id::text ILIKE '%' || search_term || '%'
ORDER BY o.created_at DESC LIMIT 1`. -/
def search_order_by_id (orders : List OrderRow) (term : String) : Option OrderRow :=
  pickLatest (orders.filter (fun o => ilikeMatch (ilikePattern term) (uuidText o).toList))

lemma isPrefixOf_segment (n : List Char) : ∀ l : List Char,
    n.isPrefixOf l = true ↔ ∃ q, l = n ++ q := by
  induction n with
  | nil => intro l; simp [List.isPrefixOf]
  | cons a as ih =>
      intro l
      cases l with
      | nil => simp [List.isPrefixOf]
      | cons b bs =>
          simp only [List.isPrefixOf, Bool.and_eq_true, beq_iff_eq, ih bs, List.cons_append,
            List.cons.injEq]
          constructor
          · rintro ⟨rfl, q, rfl⟩
            exact ⟨q, rfl, rfl⟩
          · rintro ⟨q, rfl, rfl⟩
            exact ⟨rfl, q, rfl⟩

lemma hasSub_segment (needle : List Char) : ∀ hay : List Char,
    hasSub hay needle = true ↔ ∃ p q, hay = p ++ needle ++ q := by
  intro hay
  induction hay with
  | nil =>
      simp only [hasSub, List.isEmpty_iff]
      constructor
      · rintro rfl
        exact ⟨[], [], rfl⟩
      · rintro ⟨p, q, hpq⟩
        rcases List.append_eq_nil.mp hpq.symm with ⟨h1, rfl⟩
        exact (List.append_eq_nil.mp h1).2
  | cons c t ih =>
      simp only [hasSub, Bool.or_eq_true, isPrefixOf_segment, ih]
      constructor
      · rintro (⟨q, hq⟩ | ⟨p, q, hpq⟩)
        · exact ⟨[], q, by simpa using hq⟩
        · exact ⟨c :: p, q, by simp [hpq]⟩
      · rintro ⟨p, q, hpq⟩
        cases p with
        | nil =>
            left
            exact ⟨q, by simpa using hpq⟩
        | cons x xs =>
            right
            simp only [List.cons_append, List.cons.injEq] at hpq
            exact ⟨xs, q, hpq.2⟩

lemma hasSub_nil_needle (hay : List Char) : hasSub hay [] = true := by
  cases hay with
  | nil => rfl
  | cons c t => simp [hasSub, List.isPrefixOf]

lemma foldl_laterOf_some (l : List OrderRow) : ∀ b : OrderRow,
    ∃ c, l.foldl laterOf (some b) = some c ∧ (c = b ∨ c ∈ l) ∧
      b.created_at ≤ c.created_at ∧ ∀ x ∈ l, x.created_at ≤ c.created_at := by
  induction l with
  | nil =>
      intro b
      exact ⟨b, rfl, Or.inl rfl, le_refl _, by simp⟩
  | cons o t ih =>
      intro b
      rw [List.foldl_cons]
      by_cases h : b.created_at < o.created_at
      · have hstep : laterOf (some b) o = some o := by simp [laterOf, h]
        rw [hstep]
        obtain ⟨c, hc1, hc2, hc3, hc4⟩ := ih o
        refine ⟨c, hc1, ?_, le_trans (le_of_lt h) hc3, ?_⟩
        · right
          rcases hc2 with rfl | hmem
          · exact List.mem_cons_self _ _
          · exact List.mem_cons_of_mem _ hmem
        · intro x hx
          rcases List.mem_cons.mp hx with rfl | hx'
          · exact hc3
          · exact hc4 x hx'
      · have hstep : laterOf (some b) o = some b := by simp [laterOf, h]
        rw [hstep]
        obtain ⟨c, hc1, hc2, hc3, hc4⟩ := ih b
        refine ⟨c, hc1, ?_, hc3, ?_⟩
        · rcases hc2 with rfl | hmem
          · exact Or.inl rfl
          · exact Or.inr (List.mem_cons_of_mem _ hmem)
        · intro x hx
          rcases List.mem_cons.mp hx with rfl | hx'
          · exact le_trans (le_of_not_lt h) hc3
          · exact hc4 x hx'

lemma pickLatest_mem_max (l : List OrderRow) :
    (l ≠ [] → (pickLatest l).isSome)
    ∧ ∀ b, pickLatest l = some b → b ∈ l ∧ ∀ x ∈ l, x.created_at ≤ b.created_at := by
  cases l with
  | nil =>
      refine ⟨fun h => absurd rfl h, ?_⟩
      intro b hb
      cases hb
  | cons o t =>
      have hfold := foldl_laterOf_some t o
      obtain ⟨c, hc1, hc2, hc3, hc4⟩ := hfold
      have hpick : pickLatest (o :: t) = some c := by
        unfold pickLatest
        rw [List.foldl_cons]
        exact hc1
      constructor
      · intro _
        rw [hpick]
        rfl
      · intro b hb
        rw [hpick] at hb
        obtain rfl : c = b := Option.some.inj hb
        constructor
        · rcases hc2 with rfl | hmem
          · exact List.mem_cons_self _ _
          · exact List.mem_cons_of_mem _ hmem
        · intro x hx
          rcases List.mem_cons.mp hx with rfl | hx'
          · exact hc3
          · exact hc4 x hx'

lemma ilikeMatch_pct (ps t : List Char) :
    ilikeMatch ('%' :: ps) t = (allTails t).any (fun s => ilikeMatch ps s) := by
  cases t <;> (rw [ilikeMatch.eq_def]; dsimp only; rw [if_pos rfl])

lemma ilikeMatch_lit_nil (c : Char) (ps : List Char) (h1 : c ≠ '%') :
    ilikeMatch (c :: ps) [] = false := by
  rw [ilikeMatch.eq_def]
  dsimp only
  rw [if_neg h1]
  by_cases h2 : c = '_'
  · rw [if_pos h2]
  · rw [if_neg h2]
    by_cases h3 : c = '\\'
    · rw [if_pos h3]
      cases ps <;> rfl
    · rw [if_neg h3]

lemma ilikeMatch_lit_cons (c : Char) (ps : List Char) (d : Char) (ts : List Char)
    (h1 : c ≠ '%') (h2 : c ≠ '_') (h3 : c ≠ '\\') :
    ilikeMatch (c :: ps) (d :: ts) = ((c.toLower == d.toLower) && ilikeMatch ps ts) := by
  rw [ilikeMatch.eq_def]
  dsimp only
  rw [if_neg h1, if_neg h2, if_neg h3]

lemma allTails_mem (t : List Char) : ∀ s, s ∈ allTails t ↔ ∃ p, t = p ++ s := by
  induction t with
  | nil =>
      intro s
      simp only [allTails, List.mem_singleton]
      constructor
      · rintro rfl
        exact ⟨[], rfl⟩
      · rintro ⟨p, hp⟩
        exact (List.append_eq_nil.mp hp.symm).2
  | cons c ts ih =>
      intro s
      simp only [allTails, List.mem_cons, ih]
      constructor
      · rintro (rfl | ⟨p, rfl⟩)
        · exact ⟨[], rfl⟩
        · exact ⟨c :: p, rfl⟩
      · rintro ⟨p, hp⟩
        cases p with
        | nil =>
            left
            simpa using hp.symm
        | cons x xs =>
            right
            simp only [List.cons_append, List.cons.injEq] at hp
            exact ⟨xs, hp.2⟩

lemma nil_mem_allTails (t : List Char) : [] ∈ allTails t :=
  (allTails_mem t []).mpr ⟨t, (List.append_nil t).symm⟩

lemma litPat (lits : List Char) (hwf : ∀ c ∈ lits, c ≠ '%' ∧ c ≠ '_' ∧ c ≠ '\\') :
    ∀ s, ilikeMatch (lits ++ ['%']) s = true ↔
      ∃ q, s.map Char.toLower = lits.map Char.toLower ++ q := by
  induction lits with
  | nil =>
      intro s
      simp only [List.nil_append, List.map_nil]
      constructor
      · intro _
        exact ⟨s.map Char.toLower, rfl⟩
      · intro _
        rw [ilikeMatch_pct, List.any_eq_true]
        exact ⟨[], nil_mem_allTails s, by simp [ilikeMatch]⟩
  | cons c lits ih =>
      have hc := hwf c (List.mem_cons_self c lits)
      have hwf' : ∀ x ∈ lits, x ≠ '%' ∧ x ≠ '_' ∧ x ≠ '\\' :=
        fun x hx => hwf x (List.mem_cons_of_mem c hx)
      intro s
      cases s with
      | nil =>
          rw [List.cons_append, ilikeMatch_lit_nil c _ hc.1]
          simp
      | cons d ts =>
          rw [List.cons_append, ilikeMatch_lit_cons c _ d ts hc.1 hc.2.1 hc.2.2]
          simp only [Bool.and_eq_true, beq_iff_eq, ih hwf' ts, List.map_cons,
            List.cons_append, List.cons.injEq]
          constructor
          · rintro ⟨h1, q, h2⟩
            exact ⟨q, h1.symm, h2⟩
          · rintro ⟨q, h1, h2⟩
            exact ⟨h1.symm, q, h2⟩

lemma ilike_wrap (term : List Char) (hwf : ∀ c ∈ term, c ≠ '%' ∧ c ≠ '_' ∧ c ≠ '\\')
    (t : List Char) :
    ilikeMatch ('%' :: (term ++ ['%'])) t = true ↔
      ∃ p q, t.map Char.toLower = p ++ term.map Char.toLower ++ q := by
  rw [ilikeMatch_pct, List.any_eq_true]
  constructor
  · rintro ⟨s, hs, hmatch⟩
    obtain ⟨pref, rfl⟩ := (allTails_mem t s).mp hs
    obtain ⟨q, hq⟩ := (litPat term hwf s).mp hmatch
    exact ⟨pref.map Char.toLower, q, by simp [hq]⟩
  · rintro ⟨p, q, hpq⟩
    refine ⟨t.drop p.length,
      (allTails_mem t _).mpr ⟨t.take p.length, (List.take_append_drop _ t).symm⟩, ?_⟩
    apply (litPat term hwf _).mpr
    refine ⟨q, ?_⟩
    rw [List.map_drop, hpq, List.append_assoc, List.drop_left]

lemma bool_eq_of_iff {a b : Bool} (h : a = true ↔ b = true) : a = b := by
  cases a <;> cases b <;> simp_all

/-- The bridge between the SQL matcher and the spec's containment notion,
valid exactly for fragments free of the `ILIKE` metacharacters. -/
lemma ilike_eq_containsCI (term : String)
    (hwf : ∀ c ∈ term.toList, c ≠ '%' ∧ c ≠ '_' ∧ c ≠ '\\') (hay : String) :
    ilikeMatch (ilikePattern term) hay.toList = containsCI term hay := by
  apply bool_eq_of_iff
  have h1 := ilike_wrap term.toList hwf hay.toList
  have h2 := hasSub_segment (lowerList term) (lowerList hay)
  unfold containsCI
  unfold lowerList at h2 ⊢
  exact h1.trans h2.symm

def wOrder (i : Nat) (t : Int) : OrderRow :=
  { id := i, customer_name := "Jane Doe", contact_number := "09171234567",
    service_type := "pickup", address := none, pickup_time := some "15-20 min",
    party_size := none, dine_in_time := none, payment_method := "GCash",
    reference_number := none, notes := none, total := 500, status := "pending",
    ip_address := none, receipt_url := none, created_at := t }

/-- C10 (counterexample): `ILIKE` gives the embedded fragment wildcard
semantics, so the claimed "returns an order iff some identifier contains
the fragment" fails: for the fragment "_", the pattern `'%_%'` matches the
stored order's identifier text "17", and the search returns that order,
although no identifier contains the character "_". -/
theorem search_wildcard_counterexample :
    search_order_by_id [wOrder 17 5] "_" = some (wOrder 17 5)
    ∧ containsCI "_" (uuidText (wOrder 17 5)) = false := by
  decide

/-- C10 (amended): for every search fragment free of the `ILIKE`
metacharacters `%`, `_` and backslash, the SQL matcher coincides with
case-insensitive containment of the fragment, and `search_order_by_id`
returns a row exactly when some order's identifier text contains the
fragment case-insensitively; any returned row is such a match with a
creation timestamp no earlier than every other match (so with distinct
timestamps it is the most recent match); containment is genuine
case-insensitive substring matching; and for the empty fragment —
contained in every identifier — it returns the most recently created
order of the whole store whenever any order exists, rather than no
result.  Fragments containing metacharacters instead keep their wildcard
meaning (see the counterexample). -/
theorem search_by_fragment_amended (orders : List OrderRow) (term : String)
    (hwf : ∀ c ∈ term.toList, c ≠ '%' ∧ c ≠ '_' ∧ c ≠ '\\') :
    (∀ o, ilikeMatch (ilikePattern term) (uuidText o).toList = containsCI term (uuidText o))
    ∧ ((∃ o ∈ orders, containsCI term (uuidText o) = true) →
        (search_order_by_id orders term).isSome)
    ∧ (∀ o, search_order_by_id orders term = some o →
        o ∈ orders ∧ containsCI term (uuidText o) = true ∧
          ∀ x ∈ orders, containsCI term (uuidText x) = true → x.created_at ≤ o.created_at)
    ∧ (∀ frag hay : String, containsCI frag hay = true ↔
        ∃ p q, lowerList hay = p ++ lowerList frag ++ q)
    ∧ (orders ≠ [] → (search_order_by_id orders "").isSome)
    ∧ (∀ o, search_order_by_id orders "" = some o →
        o ∈ orders ∧ ∀ x ∈ orders, x.created_at ≤ o.created_at) := by
  have hbr : ∀ o : OrderRow,
      ilikeMatch (ilikePattern term) (uuidText o).toList = containsCI term (uuidText o) :=
    fun o => ilike_eq_containsCI term hwf (uuidText o)
  have hwf0 : ∀ c ∈ ("" : String).toList, c ≠ '%' ∧ c ≠ '_' ∧ c ≠ '\\' := by
    intro c hcmem
    have hnil : ("" : String).toList = [] := rfl
    rw [hnil] at hcmem
    cases hcmem
  have hempty :
      orders.filter (fun o => ilikeMatch (ilikePattern "") (uuidText o).toList) = orders := by
    apply List.filter_eq_self.mpr
    intro a _
    rw [ilike_eq_containsCI "" hwf0 (uuidText a)]
    exact hasSub_nil_needle (lowerList (uuidText a))
  refine ⟨hbr, ?_, ?_, ?_, ?_, ?_⟩
  · rintro ⟨o, ho, hc⟩
    have hne :
        orders.filter (fun o => ilikeMatch (ilikePattern term) (uuidText o).toList) ≠ [] :=
      List.ne_nil_of_mem (List.mem_filter.mpr ⟨ho, by rw [hbr o]; exact hc⟩)
    exact (pickLatest_mem_max _).1 hne
  · intro o hso
    obtain ⟨hmemf, hmax⟩ := (pickLatest_mem_max
      (orders.filter (fun o => ilikeMatch (ilikePattern term) (uuidText o).toList))).2 o hso
    obtain ⟨hmem, hpred⟩ := List.mem_filter.mp hmemf
    rw [hbr o] at hpred
    refine ⟨hmem, hpred, ?_⟩
    intro x hx hxm
    exact hmax x (List.mem_filter.mpr ⟨hx, by rw [hbr x]; exact hxm⟩)
  · intro frag hay
    exact hasSub_segment (lowerList frag) (lowerList hay)
  · intro hne
    unfold search_order_by_id
    rw [hempty]
    exact (pickLatest_mem_max orders).1 hne
  · intro o hso
    unfold search_order_by_id at hso
    rw [hempty] at hso
    exact (pickLatest_mem_max orders).2 o hso

/-- Witness for the amended C10: the wildcard-free fragment "17" matches
both stored orders and a result is returned. -/
theorem search_by_fragment_amended_witness :
    (search_order_by_id [wOrder 17 5, wOrder 171 9] "17").isSome :=
  (search_by_fragment_amended [wOrder 17 5, wOrder 171 9] "17" (by decide)).2.1 (by decide)

end Petshop
